import Mathlib

/-!
Verification development for the mktcmenu menu-descriptor compiler
(`mktcmenu.py`).  The Python source is shallowly embedded: Python `int`s
become `Int`, Python `dict`s become association lists (`List (String × _)`)
with insert-in-place/append semantics matching `dict.__setitem__`, and
raised exceptions become `Except`/explicit error results.  YAML and C++
text output are modelled at the interface boundary only: `save`/`load`
exchange a record of the serialized fields, and the code emitter produces
a trace of emitted menu-item records (names and argument strings) rather
than raw C++ text.  Character-level operations (`re.split`, `str.capitalize`)
are modelled over ASCII via Lean `Char` primitives.
-/

/-- Allocation record stored in the EEPROM map: `{'offset': _, 'size': _}`. -/
structure Offsize where
  offset : Int
  size : Int
deriving DecidableEq, Repr

/-- Errors raised by the embedded code.  `addressSpaceExhausted` and
`noSpaceLeft` are the two distinct `RuntimeError`s of
`EEPROMMap.auto_allocate`; `notSerializable` is the `ValueError` raised by
`get_serialized_size` of non-serializable node types; `keyError` is the
`KeyError` from a missing spare-segment lookup; `indexError` is the
`IndexError` from `self.items[0]` on an empty sub-menu. -/
inductive Err where
  | addressSpaceExhausted
  | noSpaceLeft
  | notSerializable
  | keyError (k : String)
  | indexError
deriving DecidableEq, Repr

/-- Python `dict` lookup (`d[k]` / `d.get(k)`) on an association list. -/
def dlookup {α : Type} : List (String × α) → String → Option α
  | [], _ => none
  | (k', v) :: rest, k => if k' = k then some v else dlookup rest k

/-- Python `k in d` membership test. -/
def dmem {α : Type} (l : List (String × α)) (k : String) : Bool :=
  (dlookup l k).isSome

/-- Python `d[k] = v`: replaces the value in place if the key exists,
otherwise appends the new entry (insertion order preserved). -/
def dinsert {α : Type} : List (String × α) → String → α → List (String × α)
  | [], k, v => [(k, v)]
  | (k', v') :: rest, k, v =>
    if k' = k then (k', v) :: rest else (k', v') :: dinsert rest k v

/-- Python `del d[k]`. -/
def ddelete {α : Type} : List (String × α) → String → List (String × α)
  | [], _ => []
  | (k', v') :: rest, k =>
    if k' = k then ddelete rest k else (k', v') :: ddelete rest k

/-- Python `d.update(other)`: insert every entry of `other` in order. -/
def dupdate {α : Type} (base : List (String × α)) : List (String × α) → List (String × α)
  | [] => base
  | (k, v) :: rest => dupdate (dinsert base k v) rest

/-- State of `class EEPROMMap(UserDict)`: `capacity`, `varstore_bar`
(`capacity - reserve`), the bump cursor `_auto_index`, the key-to-offsize
mapping `data` (including the `'_reserved'` slot) and `spare_segments`. -/
structure EEPROMMap where
  capacity : Int
  varstore_bar : Int
  auto_index : Int
  data : List (String × Offsize)
  spare_segments : List (String × Int)
deriving DecidableEq, Repr

/-- Constructor `EEPROMMap.__init__(capacity, reserve)`: records the
`'_reserved'` slot `{offset: 0, size: 2}` and starts the cursor at 2. -/
def EEPROMMap.init (capacity : Int := 0xffff) (reserve : Int := 0) : EEPROMMap :=
  { capacity := capacity
    varstore_bar := capacity - reserve
    auto_index := 2
    data := [("_reserved", ⟨0, 2⟩)]
    spare_segments := [] }

/-- Method `EEPROMMap.auto_allocate(name, size)`.  The result pairs the
`Except` outcome with the post-call map so that the in-place-mutation
semantics of the Python method (checks happen before any mutation) stays
observable: on either raise the map is returned unchanged. -/
def EEPROMMap.auto_allocate (m : EEPROMMap) (name : String) (size : Int) :
    Except Err Offsize × EEPROMMap :=
  let max_space := min m.varstore_bar m.capacity
  let offset := m.auto_index
  if offset ≥ 0xffff ∨ offset + size > 0xffff then
    (.error .addressSpaceExhausted, m)
  else if offset ≥ max_space ∨ offset + size ≥ max_space then
    (.error .noSpaceLeft, m)
  else
    (.ok ⟨offset, size⟩,
      { m with
        data := dinsert m.data name ⟨offset, size⟩
        auto_index := m.auto_index + size })

instance {ε α : Type} [DecidableEq ε] [DecidableEq α] : DecidableEq (Except ε α)
  | .error a, .error b =>
    if h : a = b then .isTrue (by rw [h]) else .isFalse (by simp [h])
  | .error _, .ok _ => .isFalse (by simp)
  | .ok _, .error _ => .isFalse (by simp)
  | .ok a, .ok b =>
    if h : a = b then .isTrue (by rw [h]) else .isFalse (by simp [h])

example :
    (EEPROMMap.auto_allocate (EEPROMMap.init 100 0) "x" 98).1 =
      .error .noSpaceLeft := by decide

example :
    (EEPROMMap.auto_allocate (EEPROMMap.init 100 0) "x" 97).1 =
      .ok ⟨2, 97⟩ := by decide

/-- Shared attributes of `MenuBaseType.__init__`: explicit identifier
override `id`, `id-suffix`, display `name`, the `persistent` flag, the
remaining flags, the optional `callback` name and the process-wide
construction counter value `_global_index`. -/
structure BaseProps where
  id_ : Option String
  idSuffix : Option String
  name : String
  persistent : Bool
  readOnly : Bool
  localOnly : Bool
  visible : Bool
  callback : Option String
  globalIndex : Int
deriving DecidableEq, Repr

/-- Boolean `response` values accepted by `BooleanType._validate_response`. -/
inductive BoolResponse where
  | trueFalse
  | onOff
  | yesNo
deriving DecidableEq, Repr

/-- Data-source modes accepted by `ScrollChoiceType._validate_data_source`. -/
inductive ScrollMode where
  | eeprom
  | arrayInEeprom
  | ram
  | arrayInRam
  | customRenderFn
deriving DecidableEq, Repr

/-- Tagged-variant menu node model: one constructor per concrete
`MenuBaseType` subclass, holding the shared base attributes plus the
variant-specific validated attributes used during emission. -/
inductive Node where
  | analog (base : BaseProps) (precision offset divisor : Int) (unit : Option String)
  | largeNumber (base : BaseProps) (decimalPlaces len : Int) (signed : Bool)
  | float (base : BaseProps) (decimalPlaces : Int)
  | enum (base : BaseProps) (options : List String)
  | scrollChoice (base : BaseProps) (itemSize items : Int) (mode : ScrollMode) (addr : String)
  | boolean (base : BaseProps) (response : BoolResponse)
  | submenu (base : BaseProps) (items : List Node) (auth : Bool)
  | action (base : BaseProps)
deriving Repr

/-- Accessor for the shared base attributes of a node. -/
def Node.base : Node → BaseProps
  | .analog b _ _ _ _ => b
  | .largeNumber b _ _ _ => b
  | .float b _ => b
  | .enum b _ => b
  | .scrollChoice b _ _ _ _ => b
  | .boolean b _ => b
  | .submenu b _ _ => b
  | .action b => b

/-- Class attribute `serializable` of each `MenuBaseType` subclass. -/
def Node.serializable : Node → Bool
  | .analog _ _ _ _ _ => true
  | .largeNumber _ _ _ _ => true
  | .float _ _ => false
  | .enum _ _ => true
  | .scrollChoice _ _ _ _ _ => true
  | .boolean _ _ => true
  | .submenu _ _ _ => false
  | .action _ => false

/-- Method `get_serialized_size` of each subclass: a fixed byte count for
the serializable types, a `ValueError` for Float, SubMenu and Action. -/
def Node.get_serialized_size : Node → Except Err Int
  | .analog _ _ _ _ _ => .ok 2
  | .largeNumber _ _ _ _ => .ok 7
  | .float _ _ => .error .notSerializable
  | .enum _ _ => .ok 2
  | .scrollChoice _ _ _ _ _ => .ok 2
  | .boolean _ _ => .ok 1
  | .submenu _ _ _ => .error .notSerializable
  | .action _ => .error .notSerializable

/-- Word characters kept by the auto-identifier split: the pattern
`RE_AUTOID_DELIM = [\W_]+` deletes every character that is not
alphanumeric (underscore counts as a delimiter), so the retained
characters are exactly the alphanumeric ones (ASCII model). -/
def isWordChar (c : Char) : Bool :=
  c.isAlphanum

/-- State machine for `re.split(RE_AUTOID_DELIM, s)`: `acc` is the current
piece (reversed), `inDelim` records that the previous character belonged to
a delimiter run (so further delimiter characters extend the same run
instead of producing another empty piece). -/
def reSplitGo : List Char → List Char → Bool → List (List Char)
  | [], acc, _ => [acc.reverse]
  | c :: rest, acc, inDelim =>
    if isWordChar c then
      reSplitGo rest (c :: acc) false
    else if inDelim then
      reSplitGo rest acc true
    else
      acc.reverse :: reSplitGo rest [] true

/-- Model of `re.split(r'[\W_]+', s)`: pieces between maximal delimiter
runs, with an empty piece at either end when the string starts or ends
with a delimiter (exactly `re.split`'s behaviour). -/
def reSplit (l : List Char) : List (List Char) :=
  reSplitGo l [] false

/-- Python `str.capitalize()`: first character uppercased, the REST
LOWERCASED (this lowercasing is the behaviour the spec's wording misses). -/
def pyCapitalize : List Char → List Char
  | [] => []
  | c :: rest => c.toUpper :: rest.map Char.toLower

/-- Method `MenuBaseType.generate_id`: explicit `id` override if present,
otherwise `''.join(w.capitalize() for w in RE_AUTOID_DELIM.split(name))`;
the optional `id-suffix` is appended verbatim in either case. -/
def generate_id (b : BaseProps) : String :=
  let core :=
    match b.id_ with
    | some i => i
    | none => String.mk (((reSplit b.name.toList).map pyCapitalize).flatten)
  core ++ (match b.idSuffix with | some s => s | none => "")

example :
    generate_id ⟨none, none, "Enable foo_bar", false, false, false, true, none, 1⟩ =
      "EnableFooBar" := by decide

example :
    generate_id ⟨none, none, "myName", false, false, false, true, none, 1⟩ =
      "Myname" := by decide

example :
    generate_id ⟨none, some "Sfx", " weird--name ", false, false, false, true, none, 1⟩ =
      "WeirdNameSfx" := by decide

/-- Method `MenuBaseType.find_or_allocate_eeprom_space(eeprom_map)`.  The
first match arm corresponds to the guard
`self.__class__.serializable and self.persistent and id_ in eeprom_map`
(the key being looked up is found, so the lookup result doubles as the
membership test); the fallthrough mirrors `elif self.persistent` /
`else: return 0xffff`.  Exceptions raised by `get_serialized_size` or
`auto_allocate` propagate as `Except.error`. -/
def find_or_allocate_eeprom_space (n : Node) (m : EEPROMMap) :
    Except Err (Int × EEPROMMap) :=
  match dlookup m.data (generate_id n.base), n.serializable && n.base.persistent with
  | some offsize, true =>
    match n.get_serialized_size with
    | .error e => .error e
    | .ok sz =>
      if offsize.size = sz then
        .ok (offsize.offset, m)
      else
        match EEPROMMap.auto_allocate
            { m with data := ddelete m.data (generate_id n.base) }
            (generate_id n.base) sz with
        | (.ok alloc, m'') => .ok (alloc.offset, m'')
        | (.error e, _) => .error e
  | _, _ =>
    if n.base.persistent then
      match n.get_serialized_size with
      | .error e => .error e
      | .ok sz =>
        match m.auto_allocate (generate_id n.base) sz with
        | (.ok alloc, m') => .ok (alloc.offset, m')
        | (.error e, _) => .error e
    else
      .ok (0xffff, m)

example :
    find_or_allocate_eeprom_space
      (.boolean ⟨none, none, "Enable", true, false, false, true, none, 1⟩ .trueFalse)
      (EEPROMMap.init 0xffff 0) =
    .ok (2, { EEPROMMap.init 0xffff 0 with
              data := [("_reserved", ⟨0, 2⟩), ("Enable", ⟨2, 1⟩)]
              auto_index := 3 }) := by decide

example :
    find_or_allocate_eeprom_space
      (.action ⟨none, none, "Reset", false, false, false, true, none, 2⟩)
      (EEPROMMap.init 0xffff 0) =
    .ok (0xffff, EEPROMMap.init 0xffff 0) := by decide

/-- Helper: a successful lookup exhibits a member of the association list. -/
theorem dlookup_mem {α : Type} {l : List (String × α)} {k : String} {v : α}
    (h : dlookup l k = some v) : (k, v) ∈ l := by
  induction l with
  | nil => simp [dlookup] at h
  | cons hd tl ih =>
    rw [dlookup] at h
    by_cases hk : hd.1 = k
    · rw [if_pos hk] at h
      obtain ⟨k1, v1⟩ := hd
      injection h with h2
      subst hk
      subst h2
      exact List.mem_cons_self _ _
    · rw [if_neg hk] at h
      exact List.mem_cons_of_mem _ (ih h)

/-- Helper: looking up the key just inserted yields the inserted value. -/
theorem dlookup_dinsert_self {α : Type} (l : List (String × α)) (k : String) (v : α) :
    dlookup (dinsert l k v) k = some v := by
  induction l with
  | nil => simp [dinsert, dlookup]
  | cons hd tl ih =>
    rw [dinsert]
    by_cases hk : hd.1 = k
    · rw [if_pos hk, dlookup, if_pos hk]
    · rw [if_neg hk, dlookup, if_neg hk]
      exact ih

/-- C1 counterexample: the claim asserts that allocating exactly up to the
reserve boundary (`cursor + size == reserve_boundary`) succeeds, but
`auto_allocate` tests `offset + size >= max_space` (non-strict), so the
exact-boundary allocation fails with the no-space-left error.  Concretely:
capacity 100, reserve 0, cursor 2, size 98 — `2 + 98 = 100` equals the
reserve boundary and stays within capacity, yet the call is rejected and
the map is untouched. -/
theorem c1_boundary_counterexample :
    (EEPROMMap.init 100 0).auto_index + 98 = (EEPROMMap.init 100 0).varstore_bar ∧
    (EEPROMMap.init 100 0).auto_index + 98 ≤ (EEPROMMap.init 100 0).capacity ∧
    (EEPROMMap.init 100 0).auto_allocate "x" 98 =
      (.error .noSpaceLeft, EEPROMMap.init 100 0) := by
  decide

/-- C1 (amended): allocation against the reserve boundary.  When
`cursor + size` exceeds the hard ceiling 65535 the result is
`addressSpaceExhausted` (this check takes precedence); when it stays within
the hard ceiling but reaches **or** exceeds `min(varstore_bar, capacity)`
the result is `noSpaceLeft` (so allocating exactly up to the boundary
FAILS, contrary to the original claim); success requires `cursor + size`
strictly below the boundary. -/
theorem c1_exhaustion_boundary (m : EEPROMMap) (name : String) (size : Int) :
    (m.auto_index + size > 0xffff →
      (m.auto_allocate name size).1 = .error .addressSpaceExhausted) ∧
    (m.auto_index < 0xffff → m.auto_index + size ≤ 0xffff →
      min m.varstore_bar m.capacity ≤ m.auto_index + size →
      (m.auto_allocate name size).1 = .error .noSpaceLeft) ∧
    (m.auto_index < 0xffff → m.auto_index + size ≤ 0xffff → 0 ≤ size →
      m.auto_index + size < min m.varstore_bar m.capacity →
      (m.auto_allocate name size).1 = .ok ⟨m.auto_index, size⟩) := by
  refine ⟨fun h1 => ?_, fun h1 h2 h3 => ?_, fun h1 h2 h3 h4 => ?_⟩ <;>
    simp only [EEPROMMap.auto_allocate]
  · rw [if_pos (Or.inr h1)]
  · rw [if_neg (by omega), if_pos (Or.inr (by omega))]
  · rw [if_neg (by omega), if_neg (by omega)]

/-- C1 witness: the three cases of `c1_exhaustion_boundary` exercised at
concrete inputs (capacity 100, reserve 10 for the boundary cases; an
oversized request for the hard-ceiling case). -/
theorem c1_exhaustion_boundary_witness :
    ((EEPROMMap.init 100 10).auto_allocate "x" 70000).1 =
      .error .addressSpaceExhausted ∧
    ((EEPROMMap.init 100 10).auto_allocate "x" 88).1 = .error .noSpaceLeft ∧
    ((EEPROMMap.init 100 10).auto_allocate "x" 87).1 = .ok ⟨2, 87⟩ :=
  ⟨(c1_exhaustion_boundary (EEPROMMap.init 100 10) "x" 70000).1 (by decide),
   (c1_exhaustion_boundary (EEPROMMap.init 100 10) "x" 88).2.1
     (by decide) (by decide) (by decide),
   (c1_exhaustion_boundary (EEPROMMap.init 100 10) "x" 87).2.2
     (by decide) (by decide) (by decide) (by decide)⟩

/-- C10: allocation failure atomicity.  Whenever `auto_allocate` raises
either exhaustion error the map is returned unchanged (cursor, mapping and
spare segments untouched); on success the returned record is
`{offset: cursor, size: size}`, the mapping gains the new key, the cursor
advances by `size`, and every other field is unchanged. -/
theorem c10_alloc_atomicity (m : EEPROMMap) (name : String) (size : Int) :
    ((∃ e, (m.auto_allocate name size).1 = .error e) →
      (m.auto_allocate name size).2 = m) ∧
    (∀ a, (m.auto_allocate name size).1 = .ok a →
      a = ⟨m.auto_index, size⟩ ∧
      (m.auto_allocate name size).2 =
        { m with
          data := dinsert m.data name ⟨m.auto_index, size⟩
          auto_index := m.auto_index + size }) := by
  simp only [EEPROMMap.auto_allocate]
  split
  · exact ⟨fun _ => rfl, fun a ha => by simp at ha⟩
  · split
    · exact ⟨fun _ => rfl, fun a ha => by simp at ha⟩
    · refine ⟨fun ⟨e, he⟩ => by simp at he, fun a ha => ?_⟩
      simp only [Except.ok.injEq] at ha
      exact ⟨ha.symm, rfl⟩

/-- C10 witness: the error branch at a rejected request (map unchanged)
and the success branch at an accepted one (entry added, cursor advanced). -/
theorem c10_alloc_atomicity_witness :
    ((EEPROMMap.init 100 0).auto_allocate "x" 98).2 = EEPROMMap.init 100 0 ∧
    ((EEPROMMap.init 0xffff 0).auto_allocate "y" 3).2 =
      { EEPROMMap.init 0xffff 0 with
        data := dinsert (EEPROMMap.init 0xffff 0).data "y" ⟨2, 3⟩
        auto_index := 5 } :=
  ⟨(c10_alloc_atomicity (EEPROMMap.init 100 0) "x" 98).1 ⟨.noSpaceLeft, by decide⟩,
   ((c10_alloc_atomicity (EEPROMMap.init 0xffff 0) "y" 3).2 ⟨2, 3⟩ (by decide)).2⟩

/-- C9: non-persistent sentinel with frame condition.  For any node whose
`persistent` flag is false, `find_or_allocate_eeprom_space` returns the
sentinel address `0xFFFF` together with the untouched map (mapping,
cursor, capacity, reserve boundary and spare segments all unchanged),
regardless of whether the node's identifier already has a map entry. -/
theorem c9_nonpersistent_sentinel (n : Node) (m : EEPROMMap)
    (h : n.base.persistent = false) :
    find_or_allocate_eeprom_space n m = .ok (0xffff, m) := by
  unfold find_or_allocate_eeprom_space
  rcases hd : dlookup m.data (generate_id n.base) with _ | os <;>
    simp [hd, h]

/-- C9 witness: a non-persistent Action node whose identifier "Reset"
already has an entry in the map still gets the sentinel and leaves the
map alone. -/
theorem c9_nonpersistent_sentinel_witness :
    (Node.action ⟨none, none, "Reset", false, false, false, true, none, 2⟩).base.persistent
      = false ∧
    find_or_allocate_eeprom_space
      (.action ⟨none, none, "Reset", false, false, false, true, none, 2⟩)
      { EEPROMMap.init 0xffff 0 with
        data := [("_reserved", ⟨0, 2⟩), ("Reset", ⟨2, 4⟩)], auto_index := 6 } =
    .ok (0xffff,
      { EEPROMMap.init 0xffff 0 with
        data := [("_reserved", ⟨0, 2⟩), ("Reset", ⟨2, 4⟩)], auto_index := 6 }) :=
  ⟨rfl, c9_nonpersistent_sentinel _ _ rfl⟩

/-- C2: stability.  For a persistent, serializable node whose identifier is
in the map with recorded size equal to its serialized size,
`find_or_allocate_eeprom_space` returns the recorded offset with the map
(and hence cursor) unchanged; consequently calling it twice in a row,
threading the state, yields the same offset both times. -/
theorem c2_stability (n : Node) (m : EEPROMMap) (os : Offsize) (sz : Int)
    (hser : n.serializable = true) (hp : n.base.persistent = true)
    (hlk : dlookup m.data (generate_id n.base) = some os)
    (hsz : n.get_serialized_size = .ok sz) (heq : os.size = sz) :
    find_or_allocate_eeprom_space n m = .ok (os.offset, m) ∧
    (find_or_allocate_eeprom_space n m >>= fun r =>
      find_or_allocate_eeprom_space n r.2) = .ok (os.offset, m) := by
  have h1 : find_or_allocate_eeprom_space n m = .ok (os.offset, m) := by
    unfold find_or_allocate_eeprom_space
    simp [hlk, hser, hp, hsz, heq]
  refine ⟨h1, ?_⟩
  rw [h1]
  simpa using h1

/-- C2 witness: a persistent Boolean "Enable" recorded at offset 5 with
size 1 keeps offset 5 across two consecutive calls, with the map
unchanged. -/
theorem c2_stability_witness :
    find_or_allocate_eeprom_space
      (.boolean ⟨none, none, "Enable", true, false, false, true, none, 1⟩ .trueFalse)
      { EEPROMMap.init 0xffff 0 with
        data := [("_reserved", ⟨0, 2⟩), ("Enable", ⟨5, 1⟩)], auto_index := 6 } =
    .ok (5,
      { EEPROMMap.init 0xffff 0 with
        data := [("_reserved", ⟨0, 2⟩), ("Enable", ⟨5, 1⟩)], auto_index := 6 }) :=
  (c2_stability
    (.boolean ⟨none, none, "Enable", true, false, false, true, none, 1⟩ .trueFalse)
    { EEPROMMap.init 0xffff 0 with
      data := [("_reserved", ⟨0, 2⟩), ("Enable", ⟨5, 1⟩)], auto_index := 6 }
    ⟨5, 1⟩ 1 rfl rfl (by decide) rfl rfl).1

/-- Helper: shape of a successful `auto_allocate` call. -/
theorem auto_allocate_ok {m : EEPROMMap} {name : String} {size : Int}
    {a : Offsize} {m' : EEPROMMap}
    (h : m.auto_allocate name size = (.ok a, m')) :
    a = ⟨m.auto_index, size⟩ ∧
    m' = { m with
           data := dinsert m.data name ⟨m.auto_index, size⟩
           auto_index := m.auto_index + size } := by
  simp only [EEPROMMap.auto_allocate] at h
  split at h
  · simp at h
  · split at h
    · simp at h
    · rw [Prod.mk.injEq] at h
      obtain ⟨h1, h2⟩ := h
      injection h1 with h1
      exact ⟨h1.symm, h2.symm⟩

/-- C3 counterexample: the claim concludes that after a size-change
reallocation the new offset always differs from the stale offset, assuming
only that every recorded entry ends at or below the cursor.  A stale entry
of recorded size 0 sitting exactly at the cursor satisfies that invariant,
yet reallocation hands out the very same offset.  Concretely: entry
`X -> {offset: 2, size: 0}` with cursor 2; the node's serialized size is
now 1; reallocation returns offset 2 again. -/
theorem c3_realloc_counterexample :
    -- the invariant assumed by the claim holds for every recorded entry:
    (∀ kv ∈ ({ EEPROMMap.init 0xffff 0 with
               data := [("_reserved", ⟨0, 2⟩), ("X", ⟨2, 0⟩)] } : EEPROMMap).data,
        kv.2.offset + kv.2.size ≤ 2) ∧
    -- the stale entry for the node's key has offset 2 and a size (0)
    -- different from the node's serialized size (1):
    dlookup [("_reserved", (⟨0, 2⟩ : Offsize)), ("X", ⟨2, 0⟩)] "X" = some ⟨2, 0⟩ ∧
    -- yet find-or-allocate returns the SAME offset 2 for the fresh slot:
    find_or_allocate_eeprom_space
      (.boolean ⟨some "X", none, "X", true, false, false, true, none, 1⟩ .trueFalse)
      { EEPROMMap.init 0xffff 0 with
        data := [("_reserved", ⟨0, 2⟩), ("X", ⟨2, 0⟩)] } =
    .ok (2, { EEPROMMap.init 0xffff 0 with
              data := [("_reserved", ⟨0, 2⟩), ("X", ⟨2, 1⟩)]
              auto_index := 3 }) := by
  refine ⟨by decide, by decide, by decide⟩

/-- C3 (amended): size-change reallocation.  For a persistent,
serializable node whose key is recorded with a size different from its
serialized size, a successful `find_or_allocate_eeprom_space` removes the
stale entry and bump-allocates a fresh slot at the cursor for the key, and
— assuming every recorded entry ends at or below the cursor AND the stale
entry's recorded size is positive (the amendment; a zero-size stale entry
at the cursor would be handed the same offset back) — the new offset
differs from the stale offset. -/
theorem c3_size_change_realloc (n : Node) (m : EEPROMMap) (os : Offsize) (sz : Int)
    (hser : n.serializable = true) (hp : n.base.persistent = true)
    (hlk : dlookup m.data (generate_id n.base) = some os)
    (hsz : n.get_serialized_size = .ok sz) (hne : ¬ os.size = sz)
    (hinv : ∀ kv ∈ m.data, kv.2.offset + kv.2.size ≤ m.auto_index)
    (hpos : 0 < os.size)
    (hok : ∃ r, find_or_allocate_eeprom_space n m = .ok r) :
    ∃ m', find_or_allocate_eeprom_space n m = .ok (m.auto_index, m') ∧
      m'.data = dinsert (ddelete m.data (generate_id n.base)) (generate_id n.base)
          ⟨m.auto_index, sz⟩ ∧
      m'.auto_index = m.auto_index + sz ∧
      m.auto_index ≠ os.offset := by
  have hend : os.offset + os.size ≤ m.auto_index := by
    simpa using hinv _ (dlookup_mem hlk)
  have hoff : os.offset < m.auto_index := by omega
  obtain ⟨r, hok⟩ := hok
  unfold find_or_allocate_eeprom_space at hok ⊢
  simp only [hlk, hser, hp, hsz, Bool.and_self, if_neg hne] at hok ⊢
  rcases hE : EEPROMMap.auto_allocate
      { m with data := ddelete m.data (generate_id n.base) }
      (generate_id n.base) sz with ⟨res, m2⟩
  rcases res with e | a
  · rw [hE] at hok
    simp at hok
  · obtain ⟨ha, hm2⟩ := auto_allocate_ok hE
    have ha2 : a.offset = m.auto_index := by rw [ha]
    have hm2d : m2.data =
        dinsert (ddelete m.data (generate_id n.base)) (generate_id n.base)
          ⟨m.auto_index, sz⟩ := by rw [hm2]
    have hm2i : m2.auto_index = m.auto_index + sz := by rw [hm2]
    exact ⟨m2, by simp [ha2], hm2d, hm2i, by omega⟩

/-- C3 witness: persistent Boolean "Enable" recorded with stale size 2 at
offset 2, cursor 4; reallocation at serialized size 1 yields fresh offset
4 ≠ 2 with the stale entry replaced. -/
theorem c3_size_change_realloc_witness :
    ∃ m', find_or_allocate_eeprom_space
      (.boolean ⟨none, none, "Enable", true, false, false, true, none, 1⟩ .trueFalse)
      { EEPROMMap.init 0xffff 0 with
        data := [("_reserved", ⟨0, 2⟩), ("Enable", ⟨2, 2⟩)], auto_index := 4 } =
      .ok (4, m') ∧
    m'.data = dinsert
        (ddelete [("_reserved", ⟨0, 2⟩), ("Enable", ⟨2, 2⟩)] "Enable") "Enable" ⟨4, 1⟩ ∧
    m'.auto_index = 4 + 1 ∧
    (4 : Int) ≠ 2 :=
  c3_size_change_realloc
    (.boolean ⟨none, none, "Enable", true, false, false, true, none, 1⟩ .trueFalse)
    { EEPROMMap.init 0xffff 0 with
      data := [("_reserved", ⟨0, 2⟩), ("Enable", ⟨2, 2⟩)], auto_index := 4 }
    ⟨2, 2⟩ 1 rfl rfl (by decide) rfl (by decide) (by decide) (by decide)
    ⟨(4, { EEPROMMap.init 0xffff 0 with
           data := [("_reserved", ⟨0, 2⟩), ("Enable", ⟨4, 1⟩)], auto_index := 5 }),
     by decide⟩

/-- Maximal runs of alphanumeric characters of a string — the words the
spec's description of the identifier derivation refers to ("splitting on
any run of non-alphanumeric characters").  `acc` is the current run,
reversed.  Unlike `reSplitGo`, no empty boundary pieces are produced. -/
def specWordsGo : List Char → List Char → List (List Char)
  | [], acc => if acc = [] then [] else [acc.reverse]
  | c :: rest, acc =>
    if isWordChar c then
      specWordsGo rest (c :: acc)
    else if acc = [] then
      specWordsGo rest []
    else
      acc.reverse :: specWordsGo rest []

/-- Spec-side word split: the maximal alphanumeric runs of the name. -/
def specWords (l : List Char) : List (List Char) :=
  specWordsGo l []

/-- Word transformation exactly as the claim words it: "first letter
uppercased and the rest of the word preserved unchanged". -/
def capitalizeClaimed : List Char → List Char
  | [] => []
  | c :: rest => c.toUpper :: rest

/-- Modelled from the claim's words (for refutation): identifier derived
by splitting the display name on runs of non-alphanumerics, uppercasing
each word's first letter while PRESERVING the rest, concatenating, then
appending the suffix verbatim. -/
def generate_id_claimed (b : BaseProps) : String :=
  let core :=
    match b.id_ with
    | some i => i
    | none => String.mk (((specWords b.name.toList).map capitalizeClaimed).flatten)
  core ++ (match b.idSuffix with | some s => s | none => "")

/-- C4 counterexample: Python's `str.capitalize()` lowercases the rest of
each word, so for the display name "myName" (no override, no suffix) the
code derives "Myname" while the claim's transformation ("rest preserved
unchanged") yields "MyName". -/
theorem c4_autoid_counterexample :
    generate_id ⟨none, none, "myName", false, false, false, true, none, 1⟩ = "Myname" ∧
    generate_id_claimed ⟨none, none, "myName", false, false, false, true, none, 1⟩
      = "MyName" ∧
    generate_id ⟨none, none, "myName", false, false, false, true, none, 1⟩ ≠
      generate_id_claimed ⟨none, none, "myName", false, false, false, true, none, 1⟩ := by
  refine ⟨by decide, by decide, by decide⟩

/-- Helper: concatenating the capitalized pieces of the `re.split`-style
split (which may contain empty boundary pieces) equals concatenating the
capitalized maximal alphanumeric runs, because capitalizing an empty piece
yields the empty word.  The hypothesis ties the two machine states
together: while inside a delimiter run the current piece is empty. -/
theorem flatten_capitalize_reSplitGo (l : List Char) :
    ∀ (acc : List Char) (inDelim : Bool), (inDelim = true → acc = []) →
    ((reSplitGo l acc inDelim).map pyCapitalize).flatten =
      ((specWordsGo l acc).map pyCapitalize).flatten := by
  induction l with
  | nil =>
    intro acc inDelim _
    by_cases ha : acc = []
    · subst ha
      simp [reSplitGo, specWordsGo, pyCapitalize]
    · simp [reSplitGo, specWordsGo, ha]
  | cons c rest ih =>
    intro acc inDelim hstate
    by_cases hw : isWordChar c = true
    · rw [reSplitGo, if_pos hw, specWordsGo, if_pos hw]
      exact ih (c :: acc) false (by simp)
    · rw [reSplitGo, if_neg hw, specWordsGo, if_neg hw]
      cases inDelim with
      | true =>
        rw [if_pos rfl]
        have ha := hstate rfl
        subst ha
        rw [if_pos rfl]
        exact ih [] true (fun _ => rfl)
      | false =>
        rw [if_neg (by simp)]
        by_cases ha : acc = []
        · subst ha
          rw [if_pos rfl]
          simpa [pyCapitalize] using ih [] true (fun _ => rfl)
        · rw [if_neg ha]
          simp only [List.map_cons, List.flatten_cons]
          rw [ih [] true (fun _ => rfl)]

/-- C4 (amended): identifier derivation.  For every node without an
explicit identifier override, the derived identifier is the concatenation
of the maximal alphanumeric runs of the display name, each with its first
letter uppercased and the REST LOWERCASED (Python `str.capitalize`
semantics — the amendment), with the optional suffix appended verbatim. -/
theorem c4_autoid_derivation (b : BaseProps) (h : b.id_ = none) :
    generate_id b =
      String.mk (((specWords b.name.toList).map pyCapitalize).flatten) ++
        (match b.idSuffix with | some s => s | none => "") := by
  unfold generate_id
  rw [h]
  unfold reSplit specWords
  rw [flatten_capitalize_reSplitGo b.name.toList [] false (by simp)]

/-- C4 witness: the amended derivation evaluated at the display name
"my Name-v2" with suffix "X": words ["my", "Name", "v2"] capitalize to
"My", "Name", "V2", concatenated plus suffix gives "MyNameV2X". -/
theorem c4_autoid_derivation_witness :
    generate_id ⟨none, some "X", "my Name-v2", false, false, false, true, none, 1⟩ =
      String.mk (((specWords ("my Name-v2").toList).map pyCapitalize).flatten) ++ "X" :=
  c4_autoid_derivation ⟨none, some "X", "my Name-v2", false, false, false, true, none, 1⟩ rfl

/-- Record exchanged with the YAML mapping file: the dict built by
`EEPROMMap.save` and consumed by `EEPROMMap.load`.  `vars` and `spare`
are optional because `load` guards on key presence (`if 'vars' in data`)
and `save` omits `spare-segments` when empty. -/
structure SavedMap where
  capacity : Int
  varstore_bar : Int
  auto_index : Int
  vars : Option (List (String × Offsize))
  spare : Option (List (String × Int))
deriving DecidableEq, Repr

/-- Method `EEPROMMap.save(fmap)`: always writes `capacity`,
`varstore-bar`, `auto-index` and `vars`; writes `spare-segments` only when
non-empty. -/
def EEPROMMap.save (m : EEPROMMap) : SavedMap :=
  { capacity := m.capacity
    varstore_bar := m.varstore_bar
    auto_index := m.auto_index
    vars := some m.data
    spare := if m.spare_segments = [] then none else some m.spare_segments }

/-- Classmethod `EEPROMMap.load(fmap)`: starts from a default-constructed
map, overrides the three scalars, then — when present — clears `data` and
updates it from `vars`, and updates the (fresh, empty) spare segments from
`spare-segments`. -/
def EEPROMMap.load (d : SavedMap) : EEPROMMap :=
  let obj := EEPROMMap.init
  let obj := { obj with
               capacity := d.capacity
               varstore_bar := d.varstore_bar
               auto_index := d.auto_index }
  let obj :=
    match d.vars with
    | some v => { obj with data := dupdate [] v }
    | none => obj
  match d.spare with
  | some s => { obj with spare_segments := dupdate obj.spare_segments s }
  | none => obj

/-- Helper: appending does not affect a lookup that misses the prefix. -/
theorem dlookup_append_none {α : Type} {a : List (String × α)} {k : String}
    (h : dlookup a k = none) (b : List (String × α)) :
    dlookup (a ++ b) k = dlookup b k := by
  induction a with
  | nil => simp
  | cons hd tl ih =>
    rw [dlookup] at h
    rw [List.cons_append, dlookup]
    by_cases hk : hd.1 = k
    · rw [if_pos hk] at h
      cases h
    · rw [if_neg hk] at h ⊢
      exact ih h

/-- Helper: inserting an absent key appends the entry at the end. -/
theorem dinsert_of_absent {α : Type} {l : List (String × α)} {k : String}
    (h : dlookup l k = none) (v : α) : dinsert l k v = l ++ [(k, v)] := by
  induction l with
  | nil => simp [dinsert]
  | cons hd tl ih =>
    rw [dlookup] at h
    rw [dinsert]
    by_cases hk : hd.1 = k
    · rw [if_pos hk] at h
      cases h
    · rw [if_neg hk] at h ⊢
      rw [ih h, List.cons_append]

/-- Helper: updating with a duplicate-key-free batch whose keys all miss
the base appends the batch verbatim. -/
theorem dupdate_of_disjoint {α : Type} :
    ∀ (l acc : List (String × α)), (l.map Prod.fst).Nodup →
    (∀ k ∈ l.map Prod.fst, dlookup acc k = none) →
    dupdate acc l = acc ++ l := by
  intro l
  induction l with
  | nil => intro acc _ _; simp [dupdate]
  | cons hd tl ih =>
    intro acc hnd habs
    obtain ⟨k, v⟩ := hd
    rw [dupdate]
    have hk : dlookup acc k = none := habs k (by simp)
    rw [dinsert_of_absent hk v]
    rw [ih (acc ++ [(k, v)]) (by simpa using hnd.of_cons) ?side]
    · simp
    case side =>
      intro k' hk'
      rw [dlookup_append_none (habs k' (by simp [hk'])) [(k, v)]]
      have hne : k ≠ k' := by
        simp only [List.map_cons, List.nodup_cons] at hnd
        intro he
        exact hnd.1 (he ▸ hk')
      simp [dlookup, hne]

/-- Helper: updating the empty dict with a duplicate-key-free batch gives
back the batch. -/
theorem dupdate_nil {α : Type} (l : List (String × α))
    (h : (l.map Prod.fst).Nodup) : dupdate [] l = l := by
  simpa using dupdate_of_disjoint l [] h (by intro k _; rfl)

/-- C6: round-trip.  For every storage map whose mapping and spare-segment
dicts are duplicate-key free (automatic for genuine Python dicts),
`load (save m)` is observationally identical to `m`: capacity, reserve
boundary, cursor, the full mapping (including the reserved slot) and the
spare segments are all reproduced exactly. -/
theorem c6_save_load_roundtrip (m : EEPROMMap)
    (h1 : (m.data.map Prod.fst).Nodup)
    (h2 : (m.spare_segments.map Prod.fst).Nodup) :
    EEPROMMap.load m.save = m := by
  obtain ⟨cap, bar, ai, data, spare⟩ := m
  simp only [EEPROMMap.save, EEPROMMap.load] at *
  by_cases hs : spare = ([] : List (String × Int))
  · subst hs
    rw [dupdate_nil data h1]
    rfl
  · rw [if_neg hs, dupdate_nil data h1]
    show ({ capacity := cap, varstore_bar := bar, auto_index := ai, data := data,
            spare_segments := dupdate [] spare } : EEPROMMap) = _
    rw [dupdate_nil spare h2]

/-- C6 witness: a concrete map with two variable entries and one spare
segment survives the save/load round-trip unchanged. -/
theorem c6_save_load_roundtrip_witness :
    EEPROMMap.load
      (EEPROMMap.save
        ⟨2048, 2000, 9, [("_reserved", ⟨0, 2⟩), ("Enable", ⟨2, 1⟩), ("Level", ⟨3, 2⟩)],
         [("lut", 2000)]⟩) =
      ⟨2048, 2000, 9, [("_reserved", ⟨0, 2⟩), ("Enable", ⟨2, 1⟩), ("Level", ⟨3, 2⟩)],
       [("lut", 2000)]⟩ :=
  c6_save_load_roundtrip
    ⟨2048, 2000, 9, [("_reserved", ⟨0, 2⟩), ("Enable", ⟨2, 1⟩), ("Level", ⟨3, 2⟩)],
     [("lut", 2000)]⟩ (by decide) (by decide)

/-- Python `set.add` on a list model of a set: no-op when the element is
already present, otherwise appended. -/
def sadd {α : Type} [DecidableEq α] (s : List α) (x : α) : List α :=
  if x ∈ s then s else s ++ [x]

/-- Python `set.update` on the list model: add each element in turn. -/
def sunion {α : Type} [DecidableEq α] : List α → List α → List α
  | a, [] => a
  | a, x :: rest => sunion (sadd a x) rest

/-- Singleton-or-empty callback set of `MenuBaseType.list_callbacks`:
`{('on_change', self.callback)}` when a callback is set. -/
def baseCallbacks (b : BaseProps) : List (String × String) :=
  match b.callback with
  | some cb => [("on_change", cb)]
  | none => []

mutual

/-- Method `list_callbacks` of each node type: the base (event-kind,
callback-name) pairs, plus `('on_render', address)` for a ScrollChoice in
custom-renderfn mode, plus the recursive union over a SubMenu's items. -/
def list_callbacks : Node → List (String × String)
  | .analog b _ _ _ _ => baseCallbacks b
  | .largeNumber b _ _ _ => baseCallbacks b
  | .float b _ => baseCallbacks b
  | .enum b _ => baseCallbacks b
  | .scrollChoice b _ _ mode addr =>
    if mode = .customRenderFn then
      sadd (baseCallbacks b) ("on_render", addr)
    else
      baseCallbacks b
  | .boolean b _ => baseCallbacks b
  | .submenu b items _ => list_callbacks_items (baseCallbacks b) items
  | .action b => baseCallbacks b

/-- Loop `for item in self.items: callback_list.update(item.list_callbacks())`. -/
def list_callbacks_items : List (String × String) → List Node → List (String × String)
  | acc, [] => acc
  | acc, n :: rest => list_callbacks_items (sunion acc (list_callbacks n)) rest

end

/-- Accumulation across the top-level items in `do_codegen`
(`callback_list.update(item.list_callbacks())` per item). -/
def accumCallbacks (items : List Node) : List (String × String) :=
  list_callbacks_items [] items

/-- Post-traversal conflict check of `do_codegen`: walk the accumulated
pairs keeping `callback_overlap_check : name → kind`; raise
`RuntimeError(f'Callback {name} conflicts with other callbacks.')` when a
name is seen again (under any kind). -/
def checkCallbacksGo : List (String × String) → List (String × String) → Except String Unit
  | _, [] => .ok ()
  | seen, (cb_type, cb_ref) :: rest =>
    if dmem seen cb_ref then
      .error ("Callback " ++ cb_ref ++ " conflicts with other callbacks.")
    else
      checkCallbacksGo (dinsert seen cb_ref cb_type) rest

/-- The conflict check over the full accumulated pair set. -/
def checkCallbacks (l : List (String × String)) : Except String Unit :=
  checkCallbacksGo [] l

example :
    checkCallbacks [("on_change", "foo"), ("on_render", "foo")] =
      .error "Callback foo conflicts with other callbacks." := by decide

example :
    list_callbacks
      (.submenu ⟨none, none, "S", false, false, false, true, some "cb", 1⟩
        [.boolean ⟨none, none, "B", false, false, false, true, some "cb", 2⟩ .trueFalse,
         .scrollChoice ⟨none, none, "C", false, false, false, true, none, 3⟩
           1 4 .customRenderFn "rfn"] false) =
      [("on_change", "cb"), ("on_render", "rfn")] := by decide

/-- Helper: membership after a dict insert. -/
theorem dmem_dinsert {α : Type} (l : List (String × α)) (k k' : String) (v : α) :
    dmem (dinsert l k v) k' = (decide (k' = k) || dmem l k') := by
  induction l with
  | nil =>
    by_cases h : k' = k
    · subst h
      simp [dinsert, dmem, dlookup]
    · simp [dinsert, dmem, dlookup, h, Ne.symm h]
  | cons hd tl ih =>
    obtain ⟨k1, v1⟩ := hd
    rw [dinsert]
    by_cases h : k1 = k
    · subst h
      by_cases h2 : k' = k1
      · subst h2
        simp [dmem, dlookup]
      · simp [dmem, dlookup, h2, Ne.symm h2]
    · rw [if_neg h]
      by_cases h2 : k1 = k'
      · simp [dmem, dlookup, h2]
      · simp only [dmem, dlookup, if_neg h2] at ih ⊢
        exact ih

/-- Helper: the conflict walk accepts exactly the duplicate-name-free
suffixes whose names are also absent from the seen dict. -/
theorem checkCallbacksGo_ok_iff :
    ∀ (l seen : List (String × String)),
    checkCallbacksGo seen l = .ok () ↔
      ((l.map Prod.snd).Nodup ∧ ∀ nm ∈ l.map Prod.snd, dmem seen nm = false) := by
  intro l
  induction l with
  | nil => intro seen; simp [checkCallbacksGo]
  | cons hd tl ih =>
    intro seen
    obtain ⟨t, r⟩ := hd
    rw [checkCallbacksGo]
    by_cases hr : dmem seen r = true
    · rw [if_pos hr]
      simp only [List.map_cons, List.nodup_cons, List.mem_cons]
      constructor
      · intro h
        cases h
      · rintro ⟨_, hall⟩
        have := hall r (Or.inl rfl)
        rw [hr] at this
        cases this
    · rw [if_neg hr, ih]
      rw [Bool.not_eq_true] at hr
      simp only [List.map_cons, List.nodup_cons, List.mem_cons]
      constructor
      · rintro ⟨hnd, hall⟩
        have hnotr : (r : String) ∉ tl.map Prod.snd := by
          intro hmem
          have := hall r hmem
          rw [dmem_dinsert] at this
          simp at this
        refine ⟨⟨hnotr, hnd⟩, ?_⟩
        rintro nm (rfl | hm)
        · exact hr
        · have := hall nm hm
          rw [dmem_dinsert] at this
          simp at this
          exact this.2
      · rintro ⟨⟨hnotr, hnd⟩, hall⟩
        refine ⟨hnd, ?_⟩
        intro nm hm
        rw [dmem_dinsert]
        have h1 : nm ≠ r := fun he => hnotr (he ▸ hm)
        simp [h1, hall nm (Or.inr hm)]

/-- Helper: the walk either succeeds or raises; raising is exactly failure
to succeed. -/
theorem checkCallbacksGo_error_iff (seen l : List (String × String)) :
    (∃ msg, checkCallbacksGo seen l = .error msg) ↔
      ¬ (checkCallbacksGo seen l = .ok ()) := by
  rcases h : checkCallbacksGo seen l with msg | u
  · simp [h]
  · cases u
    simp [h]

/-- Helper: `set.add` of a fresh element keeps the no-duplicates invariant. -/
theorem sadd_nodup {α : Type} [DecidableEq α] {s : List α} (h : s.Nodup) (x : α) :
    (sadd s x).Nodup := by
  unfold sadd
  by_cases hx : x ∈ s
  · rwa [if_pos hx]
  · rw [if_neg hx]
    simpa [List.nodup_append] using ⟨h, hx⟩

/-- Helper: `set.update` keeps the no-duplicates invariant. -/
theorem sunion_nodup {α : Type} [DecidableEq α] :
    ∀ (b a : List α), a.Nodup → (sunion a b).Nodup := by
  intro b
  induction b with
  | nil => intro a ha; exact ha
  | cons x rest ih =>
    intro a ha
    rw [sunion]
    exact ih _ (sadd_nodup ha x)

/-- Helper: the accumulated callback sets of the traversal never hold
duplicate pairs (they are genuine sets). -/
theorem list_callbacks_items_nodup :
    ∀ (l : List Node) (acc : List (String × String)), acc.Nodup →
    (list_callbacks_items acc l).Nodup := by
  intro l
  induction l with
  | nil => intro acc ha; exact ha
  | cons n rest ih =>
    intro acc ha
    rw [list_callbacks_items]
    exact ih _ (sunion_nodup _ _ ha)

/-- Helper: in a duplicate-pair-free set, a name recorded under two kinds
forces the kinds to be equal whenever the name list is duplicate-free. -/
theorem name_nodup_kind_unique {l : List (String × String)}
    (hmap : (l.map Prod.snd).Nodup) {nm k1 k2 : String}
    (h1 : (k1, nm) ∈ l) (h2 : (k2, nm) ∈ l) : k1 = k2 := by
  have heq := List.inj_on_of_nodup_map hmap h1 h2 rfl
  exact congrArg Prod.fst heq

/-- Helper: a duplicate in the name projection of a duplicate-pair-free
set yields one name under two different kinds. -/
theorem dup_name_of_not_nodup :
    ∀ {l : List (String × String)}, l.Nodup → ¬ (l.map Prod.snd).Nodup →
    ∃ nm k1 k2, (k1, nm) ∈ l ∧ (k2, nm) ∈ l ∧ k1 ≠ k2 := by
  intro l
  induction l with
  | nil => intro _ h; simp at h
  | cons hd tl ih =>
    intro hl h
    obtain ⟨h1, h2⟩ := hd
    by_cases hmem : h2 ∈ tl.map Prod.snd
    · obtain ⟨p, hp, hp2⟩ := List.mem_map.mp hmem
      obtain ⟨p1, p2⟩ := p
      simp only at hp2
      refine ⟨h2, h1, p1, List.mem_cons_self _ _,
        List.mem_cons_of_mem _ (hp2 ▸ hp), ?_⟩
      intro he
      subst he
      rw [hp2] at hp
      exact (List.nodup_cons.mp hl).1 hp
    · have h3 : ¬ (tl.map Prod.snd).Nodup := by
        intro hn
        exact h (by simp only [List.map_cons, List.nodup_cons]; exact ⟨hmem, hn⟩)
      obtain ⟨nm, k1, k2, m1, m2, hk⟩ := ih (List.nodup_cons.mp hl).2 h3
      exact ⟨nm, k1, k2, List.mem_cons_of_mem _ m1, List.mem_cons_of_mem _ m2, hk⟩

/-- C7 counterexample: the claim says the failure is "a CallbackConflict
error naming both kinds and the name".  The raised message is
`'Callback foo conflicts with other callbacks.'`: it names the callback
name but neither event kind, so the "naming both kinds" part fails on the
accumulated set {(on_change, foo), (on_render, foo)}. -/
theorem c7_message_counterexample :
    checkCallbacks [("on_change", "foo"), ("on_render", "foo")] =
      .error "Callback foo conflicts with other callbacks." ∧
    ¬ List.IsInfix "on_change".toList
        "Callback foo conflicts with other callbacks.".toList ∧
    ¬ List.IsInfix "on_render".toList
        "Callback foo conflicts with other callbacks.".toList := by
  refine ⟨by decide, by decide, by decide⟩

/-- C7 (amended): over the accumulated set of (event-kind, callback-name)
pairs of a whole forest, the post-traversal check raises an error (naming
the callback name, though not the kinds — the amendment) if and only if
some callback name appears under two different event kinds; and adding an
already-registered identical pair to the accumulated set is a no-op, so
idempotent re-registration cannot cause a failure. -/
theorem c7_callback_conflict (items : List Node) :
    ((∃ msg, checkCallbacks (accumCallbacks items) = .error msg) ↔
      (∃ nm k1 k2, (k1, nm) ∈ accumCallbacks items ∧
        (k2, nm) ∈ accumCallbacks items ∧ k1 ≠ k2)) ∧
    (∀ p, p ∈ accumCallbacks items →
      sadd (accumCallbacks items) p = accumCallbacks items) := by
  have hnd : (accumCallbacks items).Nodup :=
    list_callbacks_items_nodup items [] List.nodup_nil
  constructor
  · rw [checkCallbacks, checkCallbacksGo_error_iff, checkCallbacksGo_ok_iff]
    constructor
    · intro h
      have h2 : ¬ ((accumCallbacks items).map Prod.snd).Nodup := by
        intro hn
        exact h ⟨hn, by intro nm _; rfl⟩
      exact dup_name_of_not_nodup hnd h2
    · rintro ⟨nm, k1, k2, m1, m2, hk⟩ ⟨hmap, _⟩
      exact hk (name_nodup_kind_unique hmap m1 m2)
  · intro p hp
    simp [sadd, hp]

/-- C7 witness: a Boolean with `on_change` callback "foo" next to a
ScrollChoice with custom render callback "foo" triggers the conflict
(via the iff), while re-adding an existing pair to a clean forest's set
is a no-op. -/
theorem c7_callback_conflict_witness :
    (∃ msg, checkCallbacks (accumCallbacks
      [.boolean ⟨none, none, "B", false, false, false, true, some "foo", 1⟩ .trueFalse,
       .scrollChoice ⟨none, none, "C", false, false, false, true, none, 2⟩
         1 4 .customRenderFn "foo"]) = .error msg) ∧
    sadd (accumCallbacks
      [.boolean ⟨none, none, "B", false, false, false, true, some "cb", 1⟩ .trueFalse])
      ("on_change", "cb") =
      accumCallbacks
      [.boolean ⟨none, none, "B", false, false, false, true, some "cb", 1⟩ .trueFalse] :=
  ⟨(c7_callback_conflict
      [.boolean ⟨none, none, "B", false, false, false, true, some "foo", 1⟩ .trueFalse,
       .scrollChoice ⟨none, none, "C", false, false, false, true, none, 2⟩
         1 4 .customRenderFn "foo"]).1.mpr
      ⟨"foo", "on_change", "on_render", by decide, by decide, by decide⟩,
   (c7_callback_conflict
      [.boolean ⟨none, none, "B", false, false, false, true, some "cb", 1⟩ .trueFalse]).2
      ("on_change", "cb") (by decide)⟩

/-- Python `hex(i)`: lowercase hex digits with a `0x` marker (and a sign
for negatives). -/
def pyHex (i : Int) : String :=
  if i < 0 then "-0x" ++ String.mk (Nat.toDigits 16 (-i).toNat)
  else "0x" ++ String.mk (Nat.toDigits 16 i.toNat)

/-- Helper `cppstr`: wrap a string in quotes, escaping embedded quotes. -/
def cppstr (s : String) : String :=
  "\"" ++ String.mk ((s.toList.map fun c =>
    if c = '"' then ['\\', '"'] else [c]).flatten) ++ "\""

/-- Python `str(bool).lower()` as used for the LargeNumber `signed` flag. -/
def pyBoolStr (b : Bool) : String :=
  if b then "true" else "false"

/-- Method `get_callback_ref`: `NO_CALLBACK` when the callback is absent
or empty. -/
def get_callback_ref (b : BaseProps) : String :=
  match b.callback with
  | none => "NO_CALLBACK"
  | some cb => if cb = "" then "NO_CALLBACK" else cb

/-- The namespace identifier `''.join(ns.generate_id() for ns in namespace)`. -/
def ns_id_of (ns : List BaseProps) : String :=
  String.join (ns.map generate_id)

/-- Response symbols `_response_syms` of `BooleanType.emit_code`. -/
def response_sym : BoolResponse → String
  | .trueFalse => "NAMING_TRUE_FALSE"
  | .onOff => "NAMING_ON_OFF"
  | .yesNo => "NAMING_YES_NO"

/-- Emission context `CodeEmitterContext`, restricted to the fields the
records model observes: the namespace path (only each enclosing SubMenu's
base attributes are consulted, via `generate_id`) and the lookahead
next-entry (again only its base attributes).  The two output buffers are
replaced by the returned record trace; `use_pgmspace` only toggles
`PROGMEM` storage qualifiers in the raw text and is not modelled. -/
structure Ctx where
  ns : List BaseProps
  next : Option BaseProps
deriving Repr

/-- One emitted record of the definitions stream: a static menu item (its
`minfo` record plus the menu-item constructor arguments), a dynamic
(runtime-rendered) menu item (the optional `RENDERING_CALLBACK_NAME_INVOKE`
argument list plus the constructor arguments), or an enum string table.
Argument values are the strings the source would `', '.join`. -/
inductive EmitRec where
  | static_ (minfoName : String) (minfoArgs : List String)
      (menuName : String) (menuArgs : List String)
  | dynamic_ (invokeArgs : Option (List String))
      (menuName : String) (menuArgs : List String)
  | enumTable (tableName : String) (options : List String)
deriving DecidableEq, Repr

/-- The `global_index_order` keyword of `emit_simple_dynamic_menu_item`. -/
inductive GIdxOrder where
  | first
  | afterCallback
  | na
deriving DecidableEq, Repr

/-- The next-link reference: `f'&{next_name}'` when a lookahead next entry
exists, `'nullptr'` otherwise. -/
def next_ref (next : Option BaseProps) (nextNsId : String) : String :=
  match next with
  | some ne => "&menu" ++ nextNsId ++ generate_id ne
  | none => "nullptr"

/-- Method `MenuBaseType.emit_simple_static_menu_item`: allocates (or
finds) the node's EEPROM slot, resolves names from the namespace and the
lookahead next entry, and emits one static record.  Returns the record,
the updated map and the menu symbol name. -/
def emit_simple_static_menu_item (n : Node) (ctx : Ctx) (m : EEPROMMap)
    (minfoExtra menuItemExtra : List String) (nextEntryNs : Option (List BaseProps)) :
    Except Err (List EmitRec × EEPROMMap × String) :=
  match find_or_allocate_eeprom_space n m with
  | .error e => .error e
  | .ok (eeprom_offset, m') =>
    let id_ := generate_id n.base
    let nsId := ns_id_of ctx.ns
    let nextNsId := match nextEntryNs with | none => nsId | some l => ns_id_of l
    let minfoName := "minfo" ++ nsId ++ id_
    let menuName := "menu" ++ nsId ++ id_
    let nextNameRef := next_ref ctx.next nextNsId
    .ok ([.static_ minfoName
            ([cppstr n.base.name, toString n.base.globalIndex, pyHex eeprom_offset] ++
              minfoExtra)
            menuName
            (["&" ++ minfoName] ++ menuItemExtra ++ [nextNameRef])],
         m', menuName)

/-- Method `MenuBaseType.emit_simple_dynamic_menu_item`: allocates (or
finds) the node's EEPROM slot and emits one dynamic record, including the
`RENDERING_CALLBACK_NAME_INVOKE` line's arguments unless a custom callback
reference is supplied. -/
def emit_simple_dynamic_menu_item (n : Node) (ctx : Ctx) (m : EEPROMMap)
    (menuItemExtra : List String) (namePre : Option String) (order : GIdxOrder)
    (nextEntryNs : Option (List BaseProps)) (customCallbackRef : Option String)
    (renderCallbackParent : String) :
    Except Err (List EmitRec × EEPROMMap × String) :=
  match find_or_allocate_eeprom_space n m with
  | .error e => .error e
  | .ok (eeprom_offset, m') =>
    let id_ := generate_id n.base
    let nsId := ns_id_of ctx.ns
    let nextNsId := match nextEntryNs with | none => nsId | some l => ns_id_of l
    let menuName :=
      "menu" ++ (match namePre with | some p => p | none => "") ++ nsId ++ id_
    let renderCallbackName :=
      match customCallbackRef with
      | none => "fn" ++ nsId ++ id_ ++ "RtCall"
      | some c => c
    let menuItemFirst :=
      match order with
      | .afterCallback => [renderCallbackName, toString n.base.globalIndex]
      | .first => [toString n.base.globalIndex, renderCallbackName]
      | .na => [renderCallbackName]
    let invokeArgs :=
      match customCallbackRef with
      | none => some [renderCallbackName, renderCallbackParent, cppstr n.base.name,
                      pyHex eeprom_offset, get_callback_ref n.base]
      | some _ => none
    let nextNameRef := next_ref ctx.next nextNsId
    .ok ([.dynamic_ invokeArgs menuName
            (menuItemFirst ++ menuItemExtra ++ [nextNameRef])],
         m', menuName)

example : pyHex 0xffff = "0xffff" := by decide
example : pyHex 2 = "0x2" := by decide
example : cppstr "En\"able" = "\"En\\\"able\"" := by decide


/-- One-step lookahead `self.items[i+1] if len(self.items) > i+1 else None`,
phrased on the remaining sibling list: the next entry is the head of the
rest (only its base attributes are ever consulted). -/
def next_of (rest : List Node) : Option BaseProps :=
  match rest with
  | [] => none
  | n2 :: _ => some n2.base

mutual

/-- Method `emit_code` of each node type, producing the ordered record
trace and the updated EEPROM map.  Per the source: Analog, Float, Boolean
and Action emit one static record; LargeNumber and ScrollChoice emit one
dynamic record (ScrollChoice first resolves its data source, raising
`KeyError` on a missing spare segment; the `extern char*` declaration of
the ram modes lives in the unmodelled declarations text); Enum first
emits its option string table; SubMenu emits its children (nested
namespace, one-step lookahead), then the synthesized back node (next-link
pointing at the first child, `IndexError` when there are no children),
then its own static entry referencing the back node. -/
def emit_code : Node → Ctx → EEPROMMap → Except Err (List EmitRec × EEPROMMap)
  | .analog b precision offset divisor unit, ctx, m =>
    match emit_simple_static_menu_item (.analog b precision offset divisor unit) ctx m
        [toString precision, get_callback_ref b, toString offset, toString divisor,
         cppstr (match unit with | some u => u | none => "")]
        ["0"] none with
    | .error e => .error e
    | .ok (recs, m', _) => .ok (recs, m')
  | .largeNumber b decimalPlaces len signed, ctx, m =>
    match emit_simple_dynamic_menu_item (.largeNumber b decimalPlaces len signed) ctx m
        [toString len, toString decimalPlaces, pyBoolStr signed]
        none .afterCallback none none "largeNumItemRenderFn" with
    | .error e => .error e
    | .ok (recs, m', _) => .ok (recs, m')
  | .float b decimalPlaces, ctx, m =>
    match emit_simple_static_menu_item (.float b decimalPlaces) ctx m
        [toString decimalPlaces, get_callback_ref b] [] none with
    | .error e => .error e
    | .ok (recs, m', _) => .ok (recs, m')
  | .enum b options, ctx, m =>
    match emit_simple_static_menu_item (.enum b options) ctx m
        [toString ((options.length : Int) - 1), get_callback_ref b,
         "enumStr" ++ ns_id_of ctx.ns ++ generate_id b]
        ["0"] none with
    | .error e => .error e
    | .ok (recs, m', _) =>
      .ok (.enumTable ("enumStr" ++ ns_id_of ctx.ns ++ generate_id b) options :: recs, m')
  | .scrollChoice b itemSize items mode addr, ctx, m =>
    match mode with
    | .eeprom | .arrayInEeprom =>
      match dlookup m.spare_segments addr with
      | none => .error (.keyError addr)
      | some v =>
        match emit_simple_dynamic_menu_item (.scrollChoice b itemSize items mode addr)
            ctx m ["0", toString v, toString itemSize, toString items]
            none .first none none "enumItemRenderFn" with
        | .error e => .error e
        | .ok (recs, m', _) => .ok (recs, m')
    | .ram | .arrayInRam =>
      match emit_simple_dynamic_menu_item (.scrollChoice b itemSize items mode addr)
          ctx m ["0", addr, toString itemSize, toString items]
          none .first none none "enumItemRenderFn" with
      | .error e => .error e
      | .ok (recs, m', _) => .ok (recs, m')
    | .customRenderFn =>
      match emit_simple_dynamic_menu_item (.scrollChoice b itemSize items mode addr)
          ctx m ["0", toString items]
          none .first none (some addr) "enumItemRenderFn" with
      | .error e => .error e
      | .ok (recs, m', _) => .ok (recs, m')
  | .boolean b response, ctx, m =>
    match emit_simple_static_menu_item (.boolean b response) ctx m
        ["1", get_callback_ref b, response_sym response] ["false"] none with
    | .error e => .error e
    | .ok (recs, m', _) => .ok (recs, m')
  | .submenu b items auth, ctx, m =>
    match emit_items items (ctx.ns ++ [b]) m with
    | .error e => .error e
    | .ok (childRecs, m1) =>
      match items with
      | [] => .error .indexError
      | first :: _ =>
        match emit_simple_dynamic_menu_item (.submenu b items auth)
            ⟨ctx.ns, some first.base⟩ m1 [] (some "back") .na
            (some (ctx.ns ++ [b])) none "backSubItemRenderFn" with
        | .error e => .error e
        | .ok (backRecs, m2, backName) =>
          match emit_simple_static_menu_item (.submenu b items auth) ctx m2
              ["0", get_callback_ref b] ["&" ++ backName] none with
          | .error e => .error e
          | .ok (ownRecs, m3, _) => .ok (childRecs ++ backRecs ++ ownRecs, m3)
  | .action b, ctx, m =>
    match emit_simple_static_menu_item (.action b) ctx m
        ["0", get_callback_ref b] [] none with
    | .error e => .error e
    | .ok (recs, m', _) => .ok (recs, m')

/-- Loop `for i, subitem in enumerate(self.items)` (also the top-level
loop of `do_codegen`): each child is emitted with the one-step-lookahead
next entry `items[i+1]` (or none for the last). -/
def emit_items : List Node → List BaseProps → EEPROMMap → Except Err (List EmitRec × EEPROMMap)
  | [], _, m => .ok ([], m)
  | n :: rest, ns, m =>
    match emit_code n ⟨ns, next_of rest⟩ m with
    | .error e => .error e
    | .ok (recs, m') =>
      match emit_items rest ns m' with
      | .error e => .error e
      | .ok (recs2, m'') => .ok (recs ++ recs2, m'')

end

example :
    emit_code
      (.submenu ⟨none, none, "Settings", false, false, false, true, none, 1⟩
        [.analog ⟨none, none, "Level", true, false, false, true, none, 2⟩ 100 0 1 none]
        false)
      ⟨[], none⟩ (EEPROMMap.init 0xffff 0) =
    .ok ([.static_ "minfoSettingsLevel"
            ["\"Level\"", "2", "0x2", "100", "NO_CALLBACK", "0", "1", "\"\""]
            "menuSettingsLevel"
            ["&minfoSettingsLevel", "0", "nullptr"],
          .dynamic_ (some ["fnSettingsRtCall", "backSubItemRenderFn", "\"Settings\"",
                           "0xffff", "NO_CALLBACK"])
            "menubackSettings"
            ["fnSettingsRtCall", "&menuSettingsLevel"],
          .static_ "minfoSettings"
            ["\"Settings\"", "1", "0xffff", "0", "NO_CALLBACK"]
            "menuSettings"
            ["&minfoSettings", "&menubackSettings", "nullptr"]],
         { EEPROMMap.init 0xffff 0 with
           data := [("_reserved", ⟨0, 2⟩), ("Level", ⟨2, 2⟩)]
           auto_index := 4 }) := by decide

/-- Helper: a successful bump allocation records the slot under the key. -/
theorem alloc_pair_lookup {mb : EEPROMMap} {key : String} {sz : Int}
    {a : Offsize} {m2 : EEPROMMap}
    (hA : mb.auto_allocate key sz = (.ok a, m2)) :
    dlookup m2.data key = some ⟨a.offset, sz⟩ := by
  obtain ⟨ha, hm2⟩ := auto_allocate_ok hA
  rw [hm2, ha]
  exact dlookup_dinsert_self _ _ _

/-- C5: storage-map key locality.  (1) Whenever a persistent node's slot is
found or allocated, the slot is recorded in the map under exactly
`generate_id` of the node — the LOCAL identifier with suffix included,
computed without any namespace input.  (2) Consequently the storage-map
outcome of emitting the node (the map component, for both the static and
the dynamic emission helpers) is identical under any two namespace
paths. -/
theorem c5_storage_key_locality (n : Node) (m : EEPROMMap) :
    (∀ off sz m', n.base.persistent = true → n.get_serialized_size = .ok sz →
      find_or_allocate_eeprom_space n m = .ok (off, m') →
      dlookup m'.data (generate_id n.base) = some ⟨off, sz⟩) ∧
    (∀ ns1 ns2 nx mi me nns npre ord ccb rcp,
      Except.map (fun r => r.2.1)
          (emit_simple_static_menu_item n ⟨ns1, nx⟩ m mi me nns) =
        Except.map (fun r => r.2.1)
          (emit_simple_static_menu_item n ⟨ns2, nx⟩ m mi me nns) ∧
      Except.map (fun r => r.2.1)
          (emit_simple_dynamic_menu_item n ⟨ns1, nx⟩ m me npre ord nns ccb rcp) =
        Except.map (fun r => r.2.1)
          (emit_simple_dynamic_menu_item n ⟨ns2, nx⟩ m me npre ord nns ccb rcp)) := by
  constructor
  · intro off sz m' hp hsz hok
    unfold find_or_allocate_eeprom_space at hok
    rcases hd : dlookup m.data (generate_id n.base) with _ | os
    · simp only [hd, hp, hsz, eq_self_iff_true, if_true] at hok
      rcases hA : EEPROMMap.auto_allocate m (generate_id n.base) sz with ⟨res, m2⟩
      rw [hA] at hok
      rcases res with e | a
      · simp at hok
      · simp only [Except.ok.injEq, Prod.mk.injEq] at hok
        obtain ⟨h1, h2⟩ := hok
        subst h1
        subst h2
        exact alloc_pair_lookup hA
    · by_cases hser : n.serializable = true
      · simp only [hd, hser, hp, Bool.and_self, hsz] at hok
        by_cases hsize : os.size = sz
        · rw [if_pos hsize] at hok
          simp only [Except.ok.injEq, Prod.mk.injEq] at hok
          obtain ⟨h1, h2⟩ := hok
          subst h1
          subst h2
          rw [hd, ← hsize]
        · rw [if_neg hsize] at hok
          rcases hA : EEPROMMap.auto_allocate
              { m with data := ddelete m.data (generate_id n.base) }
              (generate_id n.base) sz with ⟨res, m2⟩
          rw [hA] at hok
          rcases res with e | a
          · simp at hok
          · simp only [Except.ok.injEq, Prod.mk.injEq] at hok
            obtain ⟨h1, h2⟩ := hok
            subst h1
            subst h2
            exact alloc_pair_lookup hA
      · have hser2 : n.serializable = false := by
          revert hser
          cases n.serializable <;> simp
        simp only [hd, hser2, Bool.false_and, hp, hsz, eq_self_iff_true, if_true] at hok
        rcases hA : EEPROMMap.auto_allocate m (generate_id n.base) sz with ⟨res, m2⟩
        rw [hA] at hok
        rcases res with e | a
        · simp at hok
        · simp only [Except.ok.injEq, Prod.mk.injEq] at hok
          obtain ⟨h1, h2⟩ := hok
          subst h1
          subst h2
          exact alloc_pair_lookup hA
  · intro ns1 ns2 nx mi me nns npre ord ccb rcp
    constructor
    · unfold emit_simple_static_menu_item
      rcases h : find_or_allocate_eeprom_space n m with e | ⟨off, m'⟩ <;> rfl
    · unfold emit_simple_dynamic_menu_item
      rcases h : find_or_allocate_eeprom_space n m with e | ⟨off, m'⟩ <;> rfl

/-- C5 witness: allocating the persistent Boolean "Enable" records the
slot under the local key "Enable", and emitting it at top level versus
inside a "Settings" namespace yields the identical storage map. -/
theorem c5_storage_key_locality_witness :
    dlookup ({ EEPROMMap.init 0xffff 0 with
        data := [("_reserved", ⟨0, 2⟩), ("Enable", ⟨2, 1⟩)]
        auto_index := 3 } : EEPROMMap).data
      (generate_id (Node.boolean
        ⟨none, none, "Enable", true, false, false, true, none, 1⟩ .trueFalse).base)
      = some ⟨2, 1⟩ ∧
    Except.map (fun r => r.2.1)
        (emit_simple_static_menu_item
          (.boolean ⟨none, none, "Enable", true, false, false, true, none, 1⟩ .trueFalse)
          ⟨[], none⟩ (EEPROMMap.init 0xffff 0) [] [] none) =
      Except.map (fun r => r.2.1)
        (emit_simple_static_menu_item
          (.boolean ⟨none, none, "Enable", true, false, false, true, none, 1⟩ .trueFalse)
          ⟨[⟨none, none, "Settings", false, false, false, true, none, 9⟩], none⟩
          (EEPROMMap.init 0xffff 0) [] [] none) :=
  ⟨(c5_storage_key_locality
      (.boolean ⟨none, none, "Enable", true, false, false, true, none, 1⟩ .trueFalse)
      (EEPROMMap.init 0xffff 0)).1 2 1
      { EEPROMMap.init 0xffff 0 with
        data := [("_reserved", ⟨0, 2⟩), ("Enable", ⟨2, 1⟩)]
        auto_index := 3 }
      rfl rfl (by decide),
   ((c5_storage_key_locality
      (.boolean ⟨none, none, "Enable", true, false, false, true, none, 1⟩ .trueFalse)
      (EEPROMMap.init 0xffff 0)).2
      [] [⟨none, none, "Settings", false, false, false, true, none, 9⟩]
      none [] [] none none .na none "p").1⟩

/-- Per-child decomposition of the children emission loop: each child is
emitted in sibling order, threading the map, with the one-step-lookahead
next entry, producing one trace segment per child. -/
def EmitChain (ns : List BaseProps) : List Node → EEPROMMap → List (List EmitRec) → EEPROMMap → Prop
  | [], m, traces, m' => traces = [] ∧ m' = m
  | n :: rest, m, traces, m' =>
    ∃ t ts m1, traces = t :: ts ∧
      emit_code n ⟨ns, next_of rest⟩ m = .ok (t, m1) ∧
      EmitChain ns rest m1 ts m'

/-- Helper: a successful run of the emission loop decomposes into a chain
of per-child emissions whose traces concatenate to the loop's output. -/
theorem emit_items_chain :
    ∀ (items : List Node) (ns : List BaseProps) (m : EEPROMMap)
      (recs : List EmitRec) (m' : EEPROMMap),
    emit_items items ns m = .ok (recs, m') →
    ∃ traces, EmitChain ns items m traces m' ∧ recs = traces.flatten := by
  intro items
  induction items with
  | nil =>
    intro ns m recs m' h
    rw [emit_items] at h
    simp only [Except.ok.injEq, Prod.mk.injEq] at h
    obtain ⟨h1, h2⟩ := h
    exact ⟨[], ⟨rfl, h2.symm⟩, by simp [← h1]⟩
  | cons n rest ih =>
    intro ns m recs m' h
    replace h :
        (match emit_code n ⟨ns, next_of rest⟩ m with
          | .error e => (Except.error e : Except Err (List EmitRec × EEPROMMap))
          | .ok (recs1, m1) =>
            match emit_items rest ns m1 with
            | .error e => .error e
            | .ok (recs2, m2) => .ok (recs1 ++ recs2, m2)) = .ok (recs, m') := h
    rcases hE : emit_code n ⟨ns, next_of rest⟩ m with e | ⟨recs1, m1⟩
    · rw [hE] at h
      simp at h
    · rw [hE] at h
      replace h :
          (match emit_items rest ns m1 with
            | .error e => (Except.error e : Except Err (List EmitRec × EEPROMMap))
            | .ok (recs2, m2) => .ok (recs1 ++ recs2, m2)) = .ok (recs, m') := h
      rcases hI : emit_items rest ns m1 with e | ⟨recs2, m2⟩
      · rw [hI] at h
        simp at h
      · rw [hI] at h
        replace h : (Except.ok (recs1 ++ recs2, m2) :
            Except Err (List EmitRec × EEPROMMap)) = .ok (recs, m') := h
        simp only [Except.ok.injEq, Prod.mk.injEq] at h
        obtain ⟨h1, h2⟩ := h
        obtain ⟨traces, hc, hr⟩ := ih ns m1 recs2 m2 hI
        refine ⟨recs1 :: traces, ?_, ?_⟩
        · rw [EmitChain]
          exact ⟨recs1, traces, m1, rfl, hE, h2 ▸ hc⟩
        · rw [← h1, hr]
          simp

/-- C8: SubMenu emission order and linkage.  A successful compilation of a
SubMenu node (which forces the node list to be non-empty and the SubMenu
itself to be non-persistent) decomposes as: first every child is emitted
in sibling order under the nested namespace with one-step lookahead
(`EmitChain`), then the synthesized back node — whose next-link argument
is the first child's symbol under the nested namespace — and finally the
SubMenu's own static entry, whose child reference argument is the back
node's symbol.  The back node and the own entry leave the storage map at
the children's final state. -/
theorem c8_submenu_emission_order (b : BaseProps) (items : List Node) (auth : Bool)
    (ctx : Ctx) (m : EEPROMMap) (recs : List EmitRec) (mO : EEPROMMap)
    (hok : emit_code (.submenu b items auth) ctx m = .ok (recs, mO)) :
    ∃ first rest traces,
      items = first :: rest ∧
      b.persistent = false ∧
      EmitChain (ctx.ns ++ [b]) items m traces mO ∧
      recs = traces.flatten ++
        [.dynamic_
           (some ["fn" ++ ns_id_of ctx.ns ++ generate_id b ++ "RtCall",
                  "backSubItemRenderFn", cppstr b.name, pyHex 0xffff,
                  get_callback_ref b])
           ("menu" ++ "back" ++ ns_id_of ctx.ns ++ generate_id b)
           ["fn" ++ ns_id_of ctx.ns ++ generate_id b ++ "RtCall",
            "&menu" ++ ns_id_of (ctx.ns ++ [b]) ++ generate_id first.base],
         .static_
           ("minfo" ++ ns_id_of ctx.ns ++ generate_id b)
           [cppstr b.name, toString b.globalIndex, pyHex 0xffff, "0",
            get_callback_ref b]
           ("menu" ++ ns_id_of ctx.ns ++ generate_id b)
           ["&" ++ ("minfo" ++ ns_id_of ctx.ns ++ generate_id b),
            "&" ++ ("menu" ++ "back" ++ ns_id_of ctx.ns ++ generate_id b),
            next_ref ctx.next (ns_id_of ctx.ns)]] := by
  rcases items with _ | ⟨first, rest⟩
  · replace hok : (Except.error Err.indexError :
        Except Err (List EmitRec × EEPROMMap)) = .ok (recs, mO) := hok
    cases hok
  · replace hok :
        (match emit_items (first :: rest) (ctx.ns ++ [b]) m with
          | .error e => (Except.error e : Except Err (List EmitRec × EEPROMMap))
          | .ok (childRecs, m1) =>
            match emit_simple_dynamic_menu_item (.submenu b (first :: rest) auth)
                ⟨ctx.ns, some first.base⟩ m1 [] (some "back") .na
                (some (ctx.ns ++ [b])) none "backSubItemRenderFn" with
            | .error e => .error e
            | .ok (backRecs, m2, backName) =>
              match emit_simple_static_menu_item (.submenu b (first :: rest) auth)
                  ctx m2 ["0", get_callback_ref b] ["&" ++ backName] none with
              | .error e => .error e
              | .ok (ownRecs, m3, _) =>
                .ok (childRecs ++ backRecs ++ ownRecs, m3)) = .ok (recs, mO) := hok
    rcases hI : emit_items (first :: rest) (ctx.ns ++ [b]) m with e | ⟨childRecs, m1⟩
    · rw [hI] at hok
      simp at hok
    · rw [hI] at hok
      replace hok :
          (match emit_simple_dynamic_menu_item (.submenu b (first :: rest) auth)
              ⟨ctx.ns, some first.base⟩ m1 [] (some "back") .na
              (some (ctx.ns ++ [b])) none "backSubItemRenderFn" with
            | .error e => (Except.error e : Except Err (List EmitRec × EEPROMMap))
            | .ok (backRecs, m2, backName) =>
              match emit_simple_static_menu_item (.submenu b (first :: rest) auth)
                  ctx m2 ["0", get_callback_ref b] ["&" ++ backName] none with
              | .error e => .error e
              | .ok (ownRecs, m3, _) =>
                .ok (childRecs ++ backRecs ++ ownRecs, m3)) = .ok (recs, mO) := hok
      by_cases hp : b.persistent = true
      · have hfa : find_or_allocate_eeprom_space
            (.submenu b (first :: rest) auth) m1 = .error .notSerializable := by
          unfold find_or_allocate_eeprom_space
          simp only [Node.base, Node.serializable, Node.get_serialized_size]
          rcases hd : dlookup m1.data (generate_id b) with _ | os
          · simp [hd, hp]
          · simp [hd, hp]
        have herr : emit_simple_dynamic_menu_item (.submenu b (first :: rest) auth)
            ⟨ctx.ns, some first.base⟩ m1 [] (some "back") .na
            (some (ctx.ns ++ [b])) none "backSubItemRenderFn" =
            .error .notSerializable := by
          unfold emit_simple_dynamic_menu_item
          rw [hfa]
          try rfl
        rw [herr] at hok
        simp at hok
      · have hp2 : b.persistent = false := by
          revert hp
          cases b.persistent <;> simp
        have hfa : find_or_allocate_eeprom_space
            (.submenu b (first :: rest) auth) m1 = .ok (0xffff, m1) := by
          unfold find_or_allocate_eeprom_space
          simp only [Node.base, Node.serializable, Node.get_serialized_size]
          rcases hd : dlookup m1.data (generate_id b) with _ | os
          · simp [hd, hp2]
          · simp [hd, hp2]
        have hback : emit_simple_dynamic_menu_item (.submenu b (first :: rest) auth)
            ⟨ctx.ns, some first.base⟩ m1 [] (some "back") .na
            (some (ctx.ns ++ [b])) none "backSubItemRenderFn" =
            .ok ([.dynamic_
                   (some ["fn" ++ ns_id_of ctx.ns ++ generate_id b ++ "RtCall",
                          "backSubItemRenderFn", cppstr b.name, pyHex 0xffff,
                          get_callback_ref b])
                   ("menu" ++ "back" ++ ns_id_of ctx.ns ++ generate_id b)
                   ["fn" ++ ns_id_of ctx.ns ++ generate_id b ++ "RtCall",
                    "&menu" ++ ns_id_of (ctx.ns ++ [b]) ++ generate_id first.base]],
                 m1, "menu" ++ "back" ++ ns_id_of ctx.ns ++ generate_id b) := by
          unfold emit_simple_dynamic_menu_item
          rw [hfa]
          try rfl
        rw [hback] at hok
        replace hok :
            (match emit_simple_static_menu_item (.submenu b (first :: rest) auth)
                ctx m1 ["0", get_callback_ref b]
                ["&" ++ ("menu" ++ "back" ++ ns_id_of ctx.ns ++ generate_id b)] none with
              | .error e => (Except.error e : Except Err (List EmitRec × EEPROMMap))
              | .ok (ownRecs, m3, _) =>
                .ok (childRecs ++
                  [EmitRec.dynamic_
                    (some ["fn" ++ ns_id_of ctx.ns ++ generate_id b ++ "RtCall",
                           "backSubItemRenderFn", cppstr b.name, pyHex 0xffff,
                           get_callback_ref b])
                    ("menu" ++ "back" ++ ns_id_of ctx.ns ++ generate_id b)
                    ["fn" ++ ns_id_of ctx.ns ++ generate_id b ++ "RtCall",
                     "&menu" ++ ns_id_of (ctx.ns ++ [b]) ++ generate_id first.base]] ++
                  ownRecs, m3)) = .ok (recs, mO) := hok
        have hown : emit_simple_static_menu_item (.submenu b (first :: rest) auth)
            ctx m1 ["0", get_callback_ref b]
            ["&" ++ ("menu" ++ "back" ++ ns_id_of ctx.ns ++ generate_id b)] none =
            .ok ([.static_
                   ("minfo" ++ ns_id_of ctx.ns ++ generate_id b)
                   [cppstr b.name, toString b.globalIndex, pyHex 0xffff, "0",
                    get_callback_ref b]
                   ("menu" ++ ns_id_of ctx.ns ++ generate_id b)
                   ["&" ++ ("minfo" ++ ns_id_of ctx.ns ++ generate_id b),
                    "&" ++ ("menu" ++ "back" ++ ns_id_of ctx.ns ++ generate_id b),
                    next_ref ctx.next (ns_id_of ctx.ns)]],
                 m1, "menu" ++ ns_id_of ctx.ns ++ generate_id b) := by
          unfold emit_simple_static_menu_item
          rw [hfa]
          try rfl
        rw [hown] at hok
        replace hok :
            (Except.ok (childRecs ++
              [EmitRec.dynamic_
                (some ["fn" ++ ns_id_of ctx.ns ++ generate_id b ++ "RtCall",
                       "backSubItemRenderFn", cppstr b.name, pyHex 0xffff,
                       get_callback_ref b])
                ("menu" ++ "back" ++ ns_id_of ctx.ns ++ generate_id b)
                ["fn" ++ ns_id_of ctx.ns ++ generate_id b ++ "RtCall",
                 "&menu" ++ ns_id_of (ctx.ns ++ [b]) ++ generate_id first.base]] ++
              [EmitRec.static_
                ("minfo" ++ ns_id_of ctx.ns ++ generate_id b)
                [cppstr b.name, toString b.globalIndex, pyHex 0xffff, "0",
                 get_callback_ref b]
                ("menu" ++ ns_id_of ctx.ns ++ generate_id b)
                ["&" ++ ("minfo" ++ ns_id_of ctx.ns ++ generate_id b),
                 "&" ++ ("menu" ++ "back" ++ ns_id_of ctx.ns ++ generate_id b),
                 next_ref ctx.next (ns_id_of ctx.ns)]],
              m1) : Except Err (List EmitRec × EEPROMMap)) = .ok (recs, mO) := hok
        simp only [Except.ok.injEq, Prod.mk.injEq] at hok
        obtain ⟨h1, h2⟩ := hok
        obtain ⟨traces, hchain, hflat⟩ := emit_items_chain _ _ _ _ _ hI
        refine ⟨first, rest, traces, rfl, hp2, ?_, ?_⟩
        · rw [← h2]
          exact hchain
        · rw [← h1, hflat]
          simp

/-- C8 witness: the nested scenario — SubMenu "Settings" with one
persistent Analog child "Level" — decomposes into the child's trace, the
back node linking to `menuSettingsLevel`, and the own entry referencing
`menubackSettings`. -/
theorem c8_submenu_emission_order_witness :
    ∃ first rest traces,
      [Node.analog ⟨none, none, "Level", true, false, false, true, none, 2⟩ 100 0 1 none]
        = first :: rest ∧
      (⟨none, none, "Settings", false, false, false, true, none, 1⟩ : BaseProps).persistent
        = false ∧
      EmitChain ((Ctx.mk [] none).ns ++
          [⟨none, none, "Settings", false, false, false, true, none, 1⟩])
        [Node.analog ⟨none, none, "Level", true, false, false, true, none, 2⟩ 100 0 1 none]
        (EEPROMMap.init 0xffff 0) traces
        { EEPROMMap.init 0xffff 0 with
          data := [("_reserved", ⟨0, 2⟩), ("Level", ⟨2, 2⟩)]
          auto_index := 4 } ∧
      ([.static_ "minfoSettingsLevel"
          ["\"Level\"", "2", "0x2", "100", "NO_CALLBACK", "0", "1", "\"\""]
          "menuSettingsLevel"
          ["&minfoSettingsLevel", "0", "nullptr"],
        .dynamic_ (some ["fnSettingsRtCall", "backSubItemRenderFn", "\"Settings\"",
                         "0xffff", "NO_CALLBACK"])
          "menubackSettings"
          ["fnSettingsRtCall", "&menuSettingsLevel"],
        .static_ "minfoSettings"
          ["\"Settings\"", "1", "0xffff", "0", "NO_CALLBACK"]
          "menuSettings"
          ["&minfoSettings", "&menubackSettings", "nullptr"]] : List EmitRec) =
      traces.flatten ++
        [.dynamic_
           (some ["fn" ++ ns_id_of (Ctx.mk [] none).ns ++
                    generate_id ⟨none, none, "Settings", false, false, false, true, none, 1⟩
                    ++ "RtCall",
                  "backSubItemRenderFn",
                  cppstr (BaseProps.mk none none "Settings" false false false true none 1).name,
                  pyHex 0xffff,
                  get_callback_ref ⟨none, none, "Settings", false, false, false, true, none, 1⟩])
           ("menu" ++ "back" ++ ns_id_of (Ctx.mk [] none).ns ++
              generate_id ⟨none, none, "Settings", false, false, false, true, none, 1⟩)
           ["fn" ++ ns_id_of (Ctx.mk [] none).ns ++
              generate_id ⟨none, none, "Settings", false, false, false, true, none, 1⟩
              ++ "RtCall",
            "&menu" ++ ns_id_of ((Ctx.mk [] none).ns ++
                [⟨none, none, "Settings", false, false, false, true, none, 1⟩]) ++
              generate_id first.base],
         .static_
           ("minfo" ++ ns_id_of (Ctx.mk [] none).ns ++
              generate_id ⟨none, none, "Settings", false, false, false, true, none, 1⟩)
           [cppstr (BaseProps.mk none none "Settings" false false false true none 1).name,
            toString (BaseProps.mk none none "Settings" false false false true none 1).globalIndex,
            pyHex 0xffff, "0",
            get_callback_ref ⟨none, none, "Settings", false, false, false, true, none, 1⟩]
           ("menu" ++ ns_id_of (Ctx.mk [] none).ns ++
              generate_id ⟨none, none, "Settings", false, false, false, true, none, 1⟩)
           ["&" ++ ("minfo" ++ ns_id_of (Ctx.mk [] none).ns ++
              generate_id ⟨none, none, "Settings", false, false, false, true, none, 1⟩),
            "&" ++ ("menu" ++ "back" ++ ns_id_of (Ctx.mk [] none).ns ++
              generate_id ⟨none, none, "Settings", false, false, false, true, none, 1⟩),
            next_ref (Ctx.mk [] none).next (ns_id_of (Ctx.mk [] none).ns)]] :=
  c8_submenu_emission_order
    ⟨none, none, "Settings", false, false, false, true, none, 1⟩
    [Node.analog ⟨none, none, "Level", true, false, false, true, none, 2⟩ 100 0 1 none]
    false (Ctx.mk [] none) (EEPROMMap.init 0xffff 0)
    [.static_ "minfoSettingsLevel"
       ["\"Level\"", "2", "0x2", "100", "NO_CALLBACK", "0", "1", "\"\""]
       "menuSettingsLevel"
       ["&minfoSettingsLevel", "0", "nullptr"],
     .dynamic_ (some ["fnSettingsRtCall", "backSubItemRenderFn", "\"Settings\"",
                      "0xffff", "NO_CALLBACK"])
       "menubackSettings"
       ["fnSettingsRtCall", "&menuSettingsLevel"],
     .static_ "minfoSettings"
       ["\"Settings\"", "1", "0xffff", "0", "NO_CALLBACK"]
       "menuSettings"
       ["&minfoSettings", "&menubackSettings", "nullptr"]]
    { EEPROMMap.init 0xffff 0 with
      data := [("_reserved", ⟨0, 2⟩), ("Level", ⟨2, 2⟩)]
      auto_index := 4 }
    (by decide)
